import Mathlib

/-!
Shallow embedding of the typed monetary value model and the exchange-proxy /
asset-registry logic of the Python.Rsi.Framework repository, together with
proofs settling the specification claims about them.

Python floats are modelled as exact rationals (`ℚ`); Python exceptions are
modelled with `Except PyErr`; Python dictionaries are modelled as association
lists with first-match lookup.
-/

namespace Spec2Proof

/-- The Python exception classes raised by the embedded code. -/
inductive PyErr
  | typeError
  | valueError
  | zeroDivisionError
  | invalidOperation
deriving DecidableEq, Repr

/-! ## Price (src/Python/Rsi/Tools/Quotes/Price.py)

`Price` wraps a numeric amount `price` and a currency tag `quote`.  The
`Price.ZERO` sentinel carries `quote = None`, hence the `Option String`. -/

structure Price where
  price : ℚ
  quote : Option String
deriving DecidableEq, Repr

/-- `Price.ZERO = Price(price=0.0, quote=None)`. -/
def Price.ZERO : Price := ⟨0, none⟩

/-- `Price.__sub__`: requires the operand quotes to match
(`ValueError` otherwise) and subtracts the amounts, keeping the quote. -/
def Price.sub (a b : Price) : Except PyErr Price :=
  if a.quote ≠ b.quote then .error .valueError
  else .ok ⟨a.price - b.price, a.quote⟩

/-- The `Price` class defines no `__add__` (and no `__radd__`): in Python,
evaluating `a + b` on two `Price` values therefore raises a `TypeError`
(unsupported operand types). -/
def Price.add (_ _ : Price) : Except PyErr Price := .error .typeError

/-- `Price.__eq__`: compares the numeric amounts only. -/
def Price.eq (a b : Price) : Bool := decide (a.price = b.price)

/-- `Price.__lt__`: compares the numeric amounts only. -/
def Price.lt (a b : Price) : Bool := decide (a.price < b.price)

/-- `Price.__le__`: literally `self.__lt__(other) or self.__eq__(other)`. -/
def Price.le (a b : Price) : Bool := Price.lt a b || Price.eq a b

/-- `Price.__gt__`: compares the numeric amounts only. -/
def Price.gt (a b : Price) : Bool := decide (b.price < a.price)

/-- `Price.__ge__`: literally `self.__gt__(other) or self.__eq__(other)`. -/
def Price.ge (a b : Price) : Bool := Price.gt a b || Price.eq a b

/-! ## Quote and the concrete currency subtypes
(src/Python/Rsi/Tools/Quotes/Quote.py, venantvr/quotes/dollar.py, bitoin.py,
src/Python/Rsi/Tools/Quotes/Currencies.py) -/

/-- `Quote` wraps a numeric amount of quote currency. -/
structure Quote where
  amount : ℚ
deriving DecidableEq, Repr

/-- `Quote.ZERO = Quote(0.0)`. -/
def Quote.ZERO : Quote := ⟨0⟩

/-- `Quote.__gt__`: compares the numeric amounts only. -/
def Quote.gt (a b : Quote) : Bool := decide (b.amount < a.amount)

/-- `create_currency_quote` returns an instance of the concrete currency
subtype of `Quote` selected by the quote tag: the `USDT` class for
`USDT`, the `BTC` class for `BTC`, and raises `ValueError` otherwise.
The two subtypes only add a `__str__` override, so they are modelled as the
two constructors of this inductive, each carrying the `Quote` amount. -/
inductive CurrencyQuote
  | USDT (amount : ℚ)
  | BTC (amount : ℚ)
deriving DecidableEq, Repr

/-- `create_currency_quote(amount, quote)` from Currencies.py. -/
def create_currency_quote (amount : ℚ) (quote : Option String) :
    Except PyErr CurrencyQuote :=
  if quote = some "USDT" then .ok (.USDT amount)
  else if quote = some "BTC" then .ok (.BTC amount)
  else .error .valueError

/-! ## Quantity (src/Python/Rsi/Tools/Quotes/Quantity.py) -/

/-- `Quantity` wraps an amount of base asset, optionally tied to a currency
pair (identified here by its id string; the pair is used for display only). -/
structure Quantity where
  currency_pair : Option String
  quantity : ℚ
deriving DecidableEq, Repr

/-- The right operand of `Quantity.__mul__` as seen by the `isinstance`
check: either a `Price`, or any object that is not a `Price`. -/
inductive MulOperand
  | priceOp (p : Price)
  | nonPrice
deriving Repr

/-- `Quantity.__mul__`: raises `TypeError` unless the operand is a `Price`;
otherwise multiplies the amounts and builds the concrete currency quote via
`create_currency_quote`. -/
def Quantity.mul (q : Quantity) (other : MulOperand) :
    Except PyErr CurrencyQuote :=
  match other with
  | .nonPrice => .error .typeError
  | .priceOp p => create_currency_quote (q.quantity * p.price) p.quote

/-! ## Decimal truncation (`manage_amount_precision`)

Both `Quote.manage_amount_precision` and `Quantity.manage_amount_precision`
convert the amount to `decimal.Decimal` (an exact conversion, independent of
the context) and `quantize` it to `1. followed by pair_precision zeros`
with `rounding=decimal.ROUND_DOWN`, i.e. they truncate toward zero at
`pair_precision` decimal digits using exact decimal arithmetic.  `quantize`
runs under the default decimal context (precision 28, `InvalidOperation`
trapped): when the coefficient of the quantized result would be longer than
28 digits — that is, when the absolute value of the truncated scaled amount
reaches `10 ^ 28` — it raises `decimal.InvalidOperation` instead of
returning a value. -/

/-- Truncation of a rational toward zero (the integer part), the semantics
of `decimal.ROUND_DOWN` at exponent 0. -/
def truncTowardZero (y : ℚ) : ℤ :=
  if 0 ≤ y then ⌊y⌋ else ⌈y⌉

/-- Truncation toward zero at `n` decimal digits: the value computed by a
successful `quantize` call of both `manage_amount_precision` methods. -/
def truncAtDigits (x : ℚ) (n : ℕ) : ℚ :=
  (truncTowardZero (x * 10 ^ n) : ℚ) / 10 ^ n

/-- The precision of the default decimal context (`decimal.getcontext()`). -/
def decimalContextPrec : ℕ := 28

/-- `Decimal(x).quantize(Decimal(1.10^-n), rounding=ROUND_DOWN)` under the
default context: the quantized result has exponent `-n` and coefficient
`|truncTowardZero (x * 10 ^ n)|`; when that coefficient needs more than 28
digits the operation signals (and, being trapped, raises)
`InvalidOperation`, otherwise the truncated value is returned. -/
def quantizeRoundDown (x : ℚ) (n : ℕ) : Except PyErr ℚ :=
  if 10 ^ decimalContextPrec ≤ (truncTowardZero (x * 10 ^ n)).natAbs then
    .error .invalidOperation
  else .ok (truncAtDigits x n)

/-- `Quote.manage_amount_precision(pair_precision)`. -/
def Quote.manage_amount_precision (q : Quote) (pair_precision : ℕ) :
    Except PyErr Quote :=
  (quantizeRoundDown q.amount pair_precision).map Quote.mk

/-- `Quantity.manage_amount_precision(pair_precision)`: same truncation,
rebuilt with the same `currency_pair`. -/
def Quantity.manage_amount_precision (q : Quantity) (pair_precision : ℕ) :
    Except PyErr Quantity :=
  (quantizeRoundDown q.quantity pair_precision).map (Quantity.mk q.currency_pair)

/-! ## Quote.compute_slot_amount and place_conditional_buy_order
(src/Python/Rsi/Tools/Quotes/Quote.py, src/venantvr/business/gateio_proxy.py)

`compute_slot_amount` evaluates `self.amount / free_slots` with no guard: a
Python division by the integer `0` raises `ZeroDivisionError`. -/

/-- `Quote.compute_slot_amount(free_slots)`. -/
def Quote.compute_slot_amount (q : Quote) (free_slots : ℤ) :
    Except PyErr Quote :=
  if free_slots = 0 then .error .zeroDivisionError
  else .ok ⟨q.amount / free_slots⟩

/-- The slice of `GateioProxy.place_conditional_buy_order` that decides
whether the balance/price guard passes and, if so, computes the per-slot
quote via `compute_slot_amount(free_slots)`; `free_slots` defaults to `0`
and is passed through unchecked.  The subsequent quantity computation and
order placement are external effects and are not needed to settle the
claim; the function returns the quote slot that would be converted to an
order amount (`none` when the guard fails and no order is attempted). -/
def place_conditional_buy_order (debug : Bool) (quote_balance : Quote)
    (price : Price) (free_slots : ℤ := 0) : Except PyErr (Option Quote) :=
  if (Quote.gt quote_balance Quote.ZERO || debug) && Price.gt price Price.ZERO
  then do
    let quote_slot ← quote_balance.compute_slot_amount free_slots
    pure (some quote_slot)
  else pure none

/-! ## BotCurrencyPair state (src/venantvr/business/bot_currency_pair.py) -/

/-- `BotCurrencyPair.set_ready_state(result)`: given the current `is_ready`
flag and the `result` argument, returns the pair (new `is_ready`, returned
boolean).  The source sets `is_ready = True` and returns `True` exactly when
`not self.is_ready and not result`; otherwise it leaves the flag unchanged
and returns `False`. -/
def set_ready_state (is_ready : Bool) (result : Bool) : Bool × Bool :=
  if !is_ready && !result then (true, true) else (is_ready, false)

/-- The `.lower()` method of a Python string: lowercases every character
(executable per-character model of case folding). -/
def pyLower (s : String) : String := ⟨s.data.map Char.toLower⟩

/-- The `passthrough_conditions` dictionary: actor key (lowercased) to the
list of condition strings (lowercased), modelled as an association list with
first-match lookup. -/
abbrev PassMap : Type := List (String × List String)

/-- Python dictionary key lookup on the association-list model. -/
def dictGet (key : String) : PassMap → Option (List String)
  | [] => none
  | kv :: rest => if kv.1 = key then some kv.2 else dictGet key rest

/-- `BotCurrencyPair.add_passthrough_condition(actor, conditions)`: lowercases
the actor and the conditions; extends the existing list in place when the key
is present, otherwise inserts the key with the new list.  No deduplication is
performed. -/
def add_passthrough_condition (m : PassMap) (actor : String)
    (conditions : List String) : PassMap :=
  let key := pyLower actor
  let values := conditions.map pyLower
  match dictGet key m with
  | some _ => m.map (fun kv => if kv.1 = key then (kv.1, kv.2 ++ values) else kv)
  | none => m ++ [(key, values)]

/-- `BotCurrencyPair.should_avoid_condition(actor, condition)`: true iff the
lowercased actor is a registered key and the lowercased condition occurs in
its list. -/
def should_avoid_condition (m : PassMap) (actor condition : String) : Bool :=
  match dictGet (pyLower actor) m with
  | some l => decide (pyLower condition ∈ l)
  | none => false

/-! ## Asset registry (src/Python/Rsi/Tools/Business/ListOfAssets.py)

`update_active_tokens` reconciles the loaded asset list against the
candidate list produced by `load_assets_from_yaml_configuration`.  Only the
`id` and the `active` flag of a `BotCurrencyPair` participate, so a loaded
token is modelled by those two fields.  The constructor of
`BotCurrencyPair` sets `self.active = True`, so every candidate built by
`gateio_currency_pair` during a load pass arrives with `active = true`. -/

structure Token where
  id : String
  active : Bool
deriving DecidableEq, Repr

/-- The inner `for token in self.loaded_assets: if token.id == new_pair.id:
token.active = True; break` loop: sets the first token with the given id
active. -/
def markFirstActive : List Token → String → List Token
  | [], _ => []
  | t :: ts, i =>
    if t.id = i then { t with active := true } :: ts
    else t :: markFirstActive ts i

/-- The first loop of `update_active_tokens`: for each new pair in order, if
its id already occurs in the loaded list, reactivate the first matching
token in place; otherwise append the new pair.  The membership test is
re-evaluated against the current (possibly grown) list at each step, as in
the source. -/
def updatePhaseOne : List Token → List Token → List Token
  | loaded, [] => loaded
  | loaded, np :: rest =>
    if np.id ∈ loaded.map Token.id then
      updatePhaseOne (markFirstActive loaded np.id) rest
    else
      updatePhaseOne (loaded ++ [np]) rest

/-- The second loop of `update_active_tokens`: deactivate every loaded token
whose id is absent from the new-pairs id list. -/
def updatePhaseTwo (loaded : List Token) (new_pairs : List Token) :
    List Token :=
  loaded.map fun t =>
    if t.id ∈ new_pairs.map Token.id then t else { t with active := false }

/-- `ListOfAssets.update_active_tokens(new_pairs)`. -/
def update_active_tokens (loaded : List Token) (new_pairs : List Token) :
    List Token :=
  updatePhaseTwo (updatePhaseOne loaded new_pairs) new_pairs

/-! ## Order polling (src/venantvr/business/gateio_proxy.py, wait_for_order)

The loop re-queries the order status while `max_wait_time > 0`, breaking as
soon as a poll reports `closed`, sleeping `sleep_time` and decrementing
the remaining budget otherwise.  The sequence of statuses returned by the
successive `get_order` calls is an input (`statuses i` is the status seen by
the `i`-th poll).  The result records the returned `current_order`
(identified by the index of the poll that produced it, `none` when the loop
never polled), the returned `status`, and how many polls and sleeps
happened.  The source loop does not terminate when `sleep_time = 0`, so the
embedding carries a positivity proof for the sleep interval. -/

structure WaitResult where
  order : Option ℕ
  status : Option String
  polls : ℕ
  sleeps : ℕ
deriving DecidableEq, Repr

/-- The `while max_wait_time > 0` loop of `wait_for_order`, with `i` the
index of the next poll and `last` the `current_order`/`status` pair seen so
far.  The budget update `max_wait_time = max_wait_time - self.sleep_time`
exits the loop once the budget is no longer positive, which matches
saturating `ℕ` subtraction. -/
def waitLoop (statuses : ℕ → String) (sleep_time : ℕ)
    (hs : 0 < sleep_time) (max_wait : ℕ) (i : ℕ)
    (last : Option ℕ) (sleeps : ℕ) : WaitResult :=
  if h : max_wait = 0 then
    ⟨last, last.map statuses, i, sleeps⟩
  else
    let s := statuses i
    if s = "closed" then ⟨some i, some s, i + 1, sleeps⟩
    else waitLoop statuses sleep_time hs (max_wait - sleep_time) (i + 1)
      (some i) (sleeps + 1)
termination_by max_wait
decreasing_by omega

/-- `GateioProxy.wait_for_order`: starts the loop with the full budget
`max_time`, no order observed, and no sleeps performed. -/
def wait_for_order (statuses : ℕ → String) (max_time sleep_time : ℕ)
    (hs : 0 < sleep_time) : WaitResult :=
  waitLoop statuses sleep_time hs max_time 0 none 0

/-! ## Best-price estimation (src/venantvr/business/gateio_proxy.py)

`__get_orderbook_bid_ask` retrieves the order book (modelled as an input:
`none` when the SDK call raises `ApiException`, in which case the `except`
clause returns the `0.0` defaults), averages the first five bid prices and
the first five ask prices, and rounds each average with the built-in
`round` to `precision` decimal digits.  An empty side makes
`sum(...) / len(...)` raise `ZeroDivisionError`, which the `except
ApiException` clause does not catch. -/

/-- The built-in `round` of Python at integer scale: round half to even. -/
def roundHalfEven (y : ℚ) : ℤ :=
  let f := ⌊y⌋
  let r := y - f
  if r < 1 / 2 then f
  else if 1 / 2 < r then f + 1
  else if Even f then f else f + 1

/-- The `round(x, n)` of Python: round half to even at `n` decimal digits. -/
def pyRound (x : ℚ) (n : ℕ) : ℚ :=
  (roundHalfEven (x * 10 ^ n) : ℚ) / 10 ^ n

/-- The average of the first five entries of one side of the book, or
`ZeroDivisionError` when the side is empty. -/
def avgTopFive (side : List ℚ) : Except PyErr ℚ :=
  let top := side.take 5
  if top.length = 0 then .error .zeroDivisionError
  else .ok (top.sum / top.length)

/-- `GateioProxy.__get_orderbook_bid_ask(currency_pair, precision)`:
`book = none` models the SDK call raising `ApiException` (caught, defaults
returned); otherwise the bid average is computed and rounded first, then
the ask average. -/
def get_orderbook_bid_ask (book : Option (List ℚ × List ℚ))
    (precision : ℕ) : Except PyErr (ℚ × ℚ) :=
  match book with
  | none => .ok (0, 0)
  | some (bids, asks) => do
    let avg_bid ← avgTopFive bids
    let average_bid_price := pyRound avg_bid precision
    let avg_ask ← avgTopFive asks
    let average_ask_price := pyRound avg_ask precision
    .ok (average_bid_price, average_ask_price)

/-- `GateioProxy.quotation_amount_precision`: the declared precision of the pair
from the cached trading-pairs dictionary, or `256` when the pair is absent. -/
def quotation_amount_precision (pairs : List (String × ℕ))
    (pair_id : String) : ℕ :=
  (List.lookup pair_id pairs).getD 256

/-- `GateioProxy.get_buy_price`: looks up the quote precision, retrieves the
order book averages, and wraps the ask-side average as a `Price` in the
quote currency of the proxy.  (The source also returns the amount as a string,
which carries no extra information and is omitted.) -/
def get_buy_price (pairs : List (String × ℕ)) (pair_id : String)
    (book : Option (List ℚ × List ℚ)) (proxy_quote : Option String) :
    Except PyErr Price := do
  let precision := quotation_amount_precision pairs pair_id
  let prices ← get_orderbook_bid_ask book precision
  .ok ⟨prices.2, proxy_quote⟩

/-- `GateioProxy.get_sell_price`: same as `get_buy_price` but keeps the
bid-side average. -/
def get_sell_price (pairs : List (String × ℕ)) (pair_id : String)
    (book : Option (List ℚ × List ℚ)) (proxy_quote : Option String) :
    Except PyErr Price := do
  let precision := quotation_amount_precision pairs pair_id
  let prices ← get_orderbook_bid_ask book precision
  .ok ⟨prices.1, proxy_quote⟩

/-! ## Helper lemmas -/

/-- For a non-negative rational, truncation at `n` decimal digits never
exceeds the original value. -/
theorem truncAtDigits_le (x : ℚ) (n : ℕ) (hx : 0 ≤ x) :
    truncAtDigits x n ≤ x := by
  have h10 : (0 : ℚ) < 10 ^ n := by positivity
  have hx10 : (0 : ℚ) ≤ x * 10 ^ n := by positivity
  unfold truncAtDigits truncTowardZero
  rw [if_pos hx10, div_le_iff₀ h10]
  exact Int.floor_le _

/-- Truncation at `n` decimal digits lands on a grid point of the
`10 ^ n`-denominator grid. -/
theorem truncAtDigits_grid (x : ℚ) (n : ℕ) :
    ∃ k : ℤ, truncAtDigits x n = (k : ℚ) / 10 ^ n :=
  ⟨truncTowardZero (x * 10 ^ n), rfl⟩

/-- Truncation toward zero fixes integers. -/
theorem truncTowardZero_intCast (k : ℤ) : truncTowardZero (k : ℚ) = k := by
  unfold truncTowardZero
  split <;> simp

/-- A successful `quantize` call returns the truncation at `n` decimal
digits; for non-negative input it never rounds up and lies on the
`n`-digit grid. -/
theorem quantizeRoundDown_ok_spec (x : ℚ) (n : ℕ) (hx : 0 ≤ x) :
    ∀ r, quantizeRoundDown x n = .ok r →
      r = truncAtDigits x n ∧ r ≤ x ∧ ∃ k : ℤ, r = (k : ℚ) / 10 ^ n := by
  intro r hr
  unfold quantizeRoundDown at hr
  by_cases h : 10 ^ decimalContextPrec ≤ (truncTowardZero (x * 10 ^ n)).natAbs
  · rw [if_pos h] at hr
    cases hr
  · rw [if_neg h] at hr
    cases hr
    exact ⟨rfl, truncAtDigits_le x n hx, truncAtDigits_grid x n⟩

/-- `quantize` raises `InvalidOperation` exactly when the truncated
coefficient needs more than the 28 context digits. -/
theorem quantizeRoundDown_error_iff (x : ℚ) (n : ℕ) :
    quantizeRoundDown x n = .error .invalidOperation ↔
      10 ^ decimalContextPrec ≤ (truncTowardZero (x * 10 ^ n)).natAbs := by
  unfold quantizeRoundDown
  by_cases h : 10 ^ decimalContextPrec ≤ (truncTowardZero (x * 10 ^ n)).natAbs <;>
    simp [h]

/-! ## Claim theorems -/

/-- C1: multiplying a `Quantity` by a `Price` whose quote is `USDT`
(resp. `BTC`) yields the `USDT` (resp. `BTC`) concrete currency subtype of
`Quote` carrying amount `q.quantity * p.price`; multiplying by a non-`Price`
operand raises `TypeError`. -/
theorem c1_quantity_mul_dimensional (q : Quantity) (p : Price) :
    (p.quote = some "USDT" →
      q.mul (.priceOp p) = .ok (.USDT (q.quantity * p.price))) ∧
    (p.quote = some "BTC" →
      q.mul (.priceOp p) = .ok (.BTC (q.quantity * p.price))) ∧
    q.mul .nonPrice = .error .typeError := by
  refine ⟨fun h => ?_, fun h => ?_, rfl⟩ <;>
    simp [Quantity.mul, create_currency_quote, h]

/-- C1 witness: a concrete multiplication in the `USDT` branch. -/
theorem c1_quantity_mul_dimensional_witness :
    (Quantity.mk (some "BTC_USDT") 2).mul (.priceOp ⟨3, some "USDT"⟩) =
      .ok (.USDT (2 * 3)) :=
  (c1_quantity_mul_dimensional ⟨some "BTC_USDT", 2⟩ ⟨3, some "USDT"⟩).1 rfl

/-- C3: equality and every ordering operator of `Price` depend only on the
numeric amounts, never on the currency tag; in particular
`Price(1, USDT) == Price(1, BTC)` is true. -/
theorem c3_price_compare_amounts_only (a b : Price) :
    (Price.eq a b = true ↔ a.price = b.price) ∧
    (Price.lt a b = true ↔ a.price < b.price) ∧
    (Price.le a b = true ↔ a.price ≤ b.price) ∧
    (Price.gt a b = true ↔ b.price < a.price) ∧
    (Price.ge a b = true ↔ b.price ≤ a.price) ∧
    Price.eq ⟨1, some "USDT"⟩ ⟨1, some "BTC"⟩ = true := by
  refine ⟨by simp [Price.eq], by simp [Price.lt], ?_, by simp [Price.gt],
    ?_, by decide⟩
  · simp only [Price.le, Price.lt, Price.eq, Bool.or_eq_true, decide_eq_true_eq]
    constructor
    · rintro (h | h)
      · exact le_of_lt h
      · exact le_of_eq h
    · exact fun h => h.lt_or_eq
  · simp only [Price.ge, Price.gt, Price.eq, Bool.or_eq_true, decide_eq_true_eq]
    constructor
    · rintro (h | h)
      · exact le_of_lt h
      · exact le_of_eq h.symm
    · exact fun h => h.lt_or_eq.imp id Eq.symm

/-- C4 counterexample: `(a - b) + b` does not return `a` — `Price` supports
no addition, so the `+` raises `TypeError` already at
`a = Price(2, USDT)`, `b = Price(1, USDT)`. -/
theorem c4_counterexample :
    (Price.sub ⟨2, some "USDT"⟩ ⟨1, some "USDT"⟩).bind
      (fun d => Price.add d ⟨1, some "USDT"⟩) = .error .typeError := by
  rfl

/-- C4 amended: for same-quote prices the subtraction succeeds with the
amount difference and the same quote, and adding the subtrahend amount back
to the difference amount recovers the original amount exactly; the `+`
operator itself is not available on `Price` values (it raises `TypeError`). -/
theorem c4_sub_add_amount_identity (a b : Price) (h : a.quote = b.quote) :
    Price.sub a b = .ok ⟨a.price - b.price, a.quote⟩ ∧
    (a.price - b.price) + b.price = a.price ∧
    ∀ d, Price.sub a b = .ok d → Price.add d b = .error .typeError := by
  exact ⟨by simp [Price.sub, h], by ring, fun d _ => rfl⟩

/-- C4 witness: the amended identity at `a = Price(2, USDT)`,
`b = Price(1, USDT)`. -/
theorem c4_sub_add_amount_identity_witness :
    Price.sub ⟨2, some "USDT"⟩ ⟨1, some "USDT"⟩ =
      .ok ⟨2 - 1, some "USDT"⟩ ∧ ((2 : ℚ) - 1) + 1 = 2 :=
  ⟨(c4_sub_add_amount_identity ⟨2, some "USDT"⟩ ⟨1, some "USDT"⟩ rfl).1,
   (c4_sub_add_amount_identity ⟨2, some "USDT"⟩ ⟨1, some "USDT"⟩ rfl).2.1⟩

/-- C5 counterexample: `manage_amount_precision` does not return a
truncated value for every non-negative amount and digit count —
`Quote(1.0).manage_amount_precision(28)` needs a 29-digit coefficient, so
`quantize` raises `InvalidOperation` under the default 28-digit context,
and so does any ordinary amount at the 256-digit fallback precision
(here `Quantity(1.0)` at 256). -/
theorem c5_counterexample :
    (Quote.mk 1).manage_amount_precision 28 = .error .invalidOperation ∧
    (Quantity.mk none 1).manage_amount_precision 256 =
      .error .invalidOperation := by
  constructor
  · unfold Quote.manage_amount_precision quantizeRoundDown
    rw [if_pos ?_]
    · rfl
    · rw [show ((Quote.mk 1).amount * 10 ^ 28 : ℚ) = ((10 ^ 28 : ℤ) : ℚ) by
        norm_num, truncTowardZero_intCast]
      norm_num [decimalContextPrec]
  · unfold Quantity.manage_amount_precision quantizeRoundDown
    rw [if_pos ?_]
    · rfl
    · rw [show ((Quantity.mk none 1).quantity * 10 ^ 256 : ℚ) =
          ((10 ^ 256 : ℤ) : ℚ) by norm_num, truncTowardZero_intCast]
      norm_num [decimalContextPrec]

/-- C5 amended: for a non-negative `Quote` or `Quantity` amount and any
digit count `n`, `manage_amount_precision` either raises
`decimal.InvalidOperation` — which happens exactly when the truncated
coefficient needs more than the 28 significant digits of the default
decimal context — or returns the amount truncated toward zero at `n`
decimal digits; a returned value never rounds up (it is at most the
original amount) and lands on the `n`-decimal-digit grid. -/
theorem c5_manage_amount_precision_truncates (qt : Quote) (qn : Quantity)
    (n : ℕ) (hqt : 0 ≤ qt.amount) (hqn : 0 ≤ qn.quantity) :
    (∀ r, qt.manage_amount_precision n = .ok r →
      r.amount = truncAtDigits qt.amount n ∧ r.amount ≤ qt.amount ∧
      ∃ k : ℤ, r.amount = (k : ℚ) / 10 ^ n) ∧
    (∀ r, qn.manage_amount_precision n = .ok r →
      r.quantity = truncAtDigits qn.quantity n ∧ r.quantity ≤ qn.quantity ∧
      ∃ k : ℤ, r.quantity = (k : ℚ) / 10 ^ n) ∧
    (qt.manage_amount_precision n = .error .invalidOperation ↔
      10 ^ decimalContextPrec ≤
        (truncTowardZero (qt.amount * 10 ^ n)).natAbs) ∧
    (qn.manage_amount_precision n = .error .invalidOperation ↔
      10 ^ decimalContextPrec ≤
        (truncTowardZero (qn.quantity * 10 ^ n)).natAbs) := by
  refine ⟨?_, ?_, ?_, ?_⟩
  · intro r hr
    unfold Quote.manage_amount_precision at hr
    cases hq : quantizeRoundDown qt.amount n with
    | error e =>
      rw [hq] at hr
      simp [Except.map] at hr
    | ok y =>
      rw [hq] at hr
      simp only [Except.map, Except.ok.injEq] at hr
      obtain ⟨h1, h2, k, h3⟩ := quantizeRoundDown_ok_spec qt.amount n hqt y hq
      subst hr
      exact ⟨h1, h2, ⟨k, h3⟩⟩
  · intro r hr
    unfold Quantity.manage_amount_precision at hr
    cases hq : quantizeRoundDown qn.quantity n with
    | error e =>
      rw [hq] at hr
      simp [Except.map] at hr
    | ok y =>
      rw [hq] at hr
      simp only [Except.map, Except.ok.injEq] at hr
      obtain ⟨h1, h2, k, h3⟩ :=
        quantizeRoundDown_ok_spec qn.quantity n hqn y hq
      subst hr
      exact ⟨h1, h2, ⟨k, h3⟩⟩
  · rw [← quantizeRoundDown_error_iff]
    unfold Quote.manage_amount_precision
    cases hq : quantizeRoundDown qt.amount n <;> simp [Except.map, hq]
  · rw [← quantizeRoundDown_error_iff]
    unfold Quantity.manage_amount_precision
    cases hq : quantizeRoundDown qn.quantity n <;> simp [Except.map, hq]

/-- C5 witness: truncating `1.57` to one decimal digit succeeds and yields
at most `1.57`. -/
theorem c5_manage_amount_precision_truncates_witness :
    (∀ r, (Quote.mk (157 / 100)).manage_amount_precision 1 = .ok r →
      r.amount = truncAtDigits (157 / 100) 1 ∧ r.amount ≤ 157 / 100 ∧
      ∃ k : ℤ, r.amount = (k : ℚ) / 10 ^ 1) ∧
    (∀ r, (Quantity.mk none (157 / 100)).manage_amount_precision 1 = .ok r →
      r.quantity = truncAtDigits (157 / 100) 1 ∧ r.quantity ≤ 157 / 100 ∧
      ∃ k : ℤ, r.quantity = (k : ℚ) / 10 ^ 1) :=
  ⟨(c5_manage_amount_precision_truncates ⟨157 / 100⟩ ⟨none, 157 / 100⟩ 1
      (by norm_num) (by norm_num)).1,
   (c5_manage_amount_precision_truncates ⟨157 / 100⟩ ⟨none, 157 / 100⟩ 1
      (by norm_num) (by norm_num)).2.1⟩

/-- C7: `set_ready_state(result)` returns `True` exactly when `is_ready` is
currently false and `result` is falsy, in which case (and only then) the
flag flips to true; once true, the flag never returns to false. -/
theorem c7_set_ready_state_latch (is_ready result : Bool) :
    ((set_ready_state is_ready result).2 = true ↔
      is_ready = false ∧ result = false) ∧
    ((set_ready_state is_ready result).1 = true ↔
      is_ready = true ∨ (is_ready = false ∧ result = false)) ∧
    (is_ready = true → (set_ready_state is_ready result).1 = true) := by
  cases is_ready <;> cases result <;> decide

/-- C7 witness: once ready, a later call leaves the flag true. -/
theorem c7_set_ready_state_latch_witness :
    (set_ready_state true false).1 = true :=
  (c7_set_ready_state_latch true false).2.2 rfl

/-- C10: `compute_slot_amount(0)` raises `ZeroDivisionError`, and this input
is reachable through `place_conditional_buy_order`, whose `free_slots`
defaults to `0`: with a positive balance and price the guard passes and the
division by zero propagates. -/
theorem c10_zero_slot_division (q quote_balance : Quote) (price : Price)
    (debug : Bool) (hb : 0 < quote_balance.amount) (hp : 0 < price.price) :
    q.compute_slot_amount 0 = .error .zeroDivisionError ∧
    place_conditional_buy_order debug quote_balance price =
      .error .zeroDivisionError := by
  constructor
  · rfl
  · simp [place_conditional_buy_order, Quote.gt, Price.gt, Quote.ZERO,
      Price.ZERO, hb, hp, Quote.compute_slot_amount]

/-- C10 witness: the zero-division at balance 100 and price 2. -/
theorem c10_zero_slot_division_witness :
    (Quote.mk 1).compute_slot_amount 0 = .error .zeroDivisionError ∧
    place_conditional_buy_order false ⟨100⟩ ⟨2, some "USDT"⟩ =
      .error .zeroDivisionError :=
  c10_zero_slot_division ⟨1⟩ ⟨100⟩ ⟨2, some "USDT"⟩ false (by norm_num)
    (by norm_num)

/-- C6 counterexample: with a maximum wait budget of 0 the polling loop
body never runs, even when a first poll would have reported `open`: the
call returns `(None, None)` after zero polls, not the result of a single
first poll. -/
theorem c6_counterexample :
    wait_for_order (fun _ => "open") 0 1 Nat.one_pos =
      ⟨none, none, 0, 0⟩ ∧
    ¬ ((wait_for_order (fun _ => "open") 0 1 Nat.one_pos).polls = 1 ∧
       (wait_for_order (fun _ => "open") 0 1 Nat.one_pos).status =
         some "open") := by
  have h : wait_for_order (fun _ => "open") 0 1 Nat.one_pos =
      ⟨none, none, 0, 0⟩ := by
    unfold wait_for_order
    rw [waitLoop]
    rfl
  exact ⟨h, by rw [h]; intro hc; exact absurd hc.1 (by decide)⟩

/-- C6 amended: with a maximum wait budget of 0, `wait_for_order` returns
immediately — no poll of the order status and no sleep is performed — and
yields `(None, None)` as the last-seen order and status. -/
theorem c6_zero_budget_returns_without_polling (statuses : ℕ → String)
    (sleep_time : ℕ) (hs : 0 < sleep_time) :
    wait_for_order statuses 0 sleep_time hs = ⟨none, none, 0, 0⟩ := by
  unfold wait_for_order
  rw [waitLoop]
  rfl

/-- C6 witness: the amended behaviour at a concrete status stream and sleep
interval. -/
theorem c6_zero_budget_returns_without_polling_witness :
    wait_for_order (fun _ => "closed") 0 2 (Nat.succ_pos 1) =
      ⟨none, none, 0, 0⟩ :=
  c6_zero_budget_returns_without_polling (fun _ => "closed") 2 (Nat.succ_pos 1)

/-- C8: `add_passthrough_condition` appends the lowercased conditions under
the lowercased actor key without deduplication (the stored list becomes the
previous list extended by the new values), `should_avoid_condition` holds
iff the actor key is registered and the lowercased condition occurs in its
list, and the double registration of `cond_a` for `strategy1` stores
`[cond_a, cond_a]`. -/
theorem c8_passthrough_append_no_dedup (m : PassMap)
    (actor condition : String) (conditions : List String) :
    (dictGet (pyLower actor) (add_passthrough_condition m actor conditions) =
      some ((dictGet (pyLower actor) m).getD [] ++ conditions.map pyLower)) ∧
    (should_avoid_condition m actor condition = true ↔
      ∃ l, dictGet (pyLower actor) m = some l ∧ pyLower condition ∈ l) ∧
    (add_passthrough_condition
        (add_passthrough_condition [] "strategy1" ["cond_a"]) "strategy1"
        ["cond_a"] = [("strategy1", ["cond_a", "cond_a"])]) := by
  refine ⟨?_, ?_, by decide⟩
  · unfold add_passthrough_condition
    cases h : dictGet (pyLower actor) m with
    | none =>
      simp only [h, Option.getD_none, List.nil_append]
      induction m with
      | nil => simp [dictGet]
      | cons kv rest ih =>
        rw [dictGet] at h
        by_cases hk : kv.1 = pyLower actor
        · simp [hk] at h
        · rw [if_neg hk] at h
          simpa [List.cons_append, dictGet, hk] using ih h
    | some l =>
      simp only [h, Option.getD_some]
      induction m with
      | nil => simp [dictGet] at h
      | cons kv rest ih =>
        rw [dictGet] at h
        by_cases hk : kv.1 = pyLower actor
        · rw [if_pos hk] at h
          injection h with h
          subst h
          simp [dictGet, hk]
        · rw [if_neg hk] at h
          simpa [dictGet, hk] using ih h
  · unfold should_avoid_condition
    cases h : dictGet (pyLower actor) m with
    | none => simp [h]
    | some l => simp [h]

/-- C9: on a retrieved order book with non-empty sides, `get_buy_price`
returns the average of the top-5 ask prices and `get_sell_price` the
average of the top-5 bid prices — each side averaged independently of the
other — rounded to the quote precision of the instrument and tagged with
the quote currency of the proxy. -/
theorem c9_best_price_top5_average (pairs : List (String × ℕ))
    (pair_id : String) (bids asks : List ℚ) (proxy_quote : Option String)
    (hb : bids ≠ []) (ha : asks ≠ []) :
    get_buy_price pairs pair_id (some (bids, asks)) proxy_quote =
      .ok ⟨pyRound ((asks.take 5).sum / (asks.take 5).length)
        (quotation_amount_precision pairs pair_id), proxy_quote⟩ ∧
    get_sell_price pairs pair_id (some (bids, asks)) proxy_quote =
      .ok ⟨pyRound ((bids.take 5).sum / (bids.take 5).length)
        (quotation_amount_precision pairs pair_id), proxy_quote⟩ := by
  have hb5 : ¬ (bids.take 5).length = 0 := by
    have := List.length_pos.mpr hb
    simp only [List.length_take]
    omega
  have ha5 : ¬ (asks.take 5).length = 0 := by
    have := List.length_pos.mpr ha
    simp only [List.length_take]
    omega
  constructor <;>
    simp [get_buy_price, get_sell_price, get_orderbook_bid_ask, avgTopFive,
      hb, ha, hb5, ha5, Bind.bind, Except.bind]

/-- C9 witness: a concrete three-level book, pair absent from the cached
snapshot (precision 256). -/
theorem c9_best_price_top5_average_witness :
    get_buy_price [] "BTC_USDT" (some ([5, 4, 3], [6, 7, 8])) (some "USDT") =
      .ok ⟨pyRound (([(6 : ℚ), 7, 8].take 5).sum /
        (([(6 : ℚ), 7, 8].take 5).length))
        (quotation_amount_precision [] "BTC_USDT"), some "USDT"⟩ ∧
    get_sell_price [] "BTC_USDT" (some ([5, 4, 3], [6, 7, 8])) (some "USDT") =
      .ok ⟨pyRound (([(5 : ℚ), 4, 3].take 5).sum /
        (([(5 : ℚ), 4, 3].take 5).length))
        (quotation_amount_precision [] "BTC_USDT"), some "USDT"⟩ :=
  c9_best_price_top5_average [] "BTC_USDT" [5, 4, 3] [6, 7, 8] (some "USDT")
    (by decide) (by decide)

/-! ### Lemmas about `update_active_tokens` -/

/-- Reactivating a token in place does not change the id sequence. -/
theorem markFirstActive_map_id (l : List Token) (i : String) :
    (markFirstActive l i).map Token.id = l.map Token.id := by
  induction l with
  | nil => rfl
  | cons t ts ih => by_cases h : t.id = i <;> simp [markFirstActive, h, ih]

/-- Every token of `markFirstActive l i` is a token of `l`, possibly with
its `active` flag switched on. -/
theorem mem_markFirstActive (l : List Token) (i : String) (t : Token)
    (ht : t ∈ markFirstActive l i) :
    t ∈ l ∨ ∃ s ∈ l, t = { s with active := true } := by
  induction l with
  | nil => simp [markFirstActive] at ht
  | cons s ts ih =>
    rw [markFirstActive] at ht
    by_cases h : s.id = i
    · rw [if_pos h] at ht
      rcases List.mem_cons.mp ht with h1 | h1
      · exact Or.inr ⟨s, List.mem_cons_self s ts, h1⟩
      · exact Or.inl (List.mem_cons_of_mem _ h1)
    · rw [if_neg h] at ht
      rcases List.mem_cons.mp ht with h1 | h1
      · exact Or.inl (h1 ▸ List.mem_cons_self s ts)
      · rcases ih h1 with h2 | ⟨u, hu, he⟩
        · exact Or.inl (List.mem_cons_of_mem _ h2)
        · exact Or.inr ⟨u, List.mem_cons_of_mem _ hu, he⟩

/-- When the ids of `l` are distinct and `i` occurs among them,
`markFirstActive l i` leaves every token with id `i` active. -/
theorem markFirstActive_active (l : List Token) (i : String)
    (hnd : (l.map Token.id).Nodup) (hin : i ∈ l.map Token.id) :
    ∀ t ∈ markFirstActive l i, t.id = i → t.active = true := by
  induction l with
  | nil => simp at hin
  | cons s ts ih =>
    simp only [List.map_cons, List.nodup_cons] at hnd
    intro t ht hti
    rw [markFirstActive] at ht
    by_cases h : s.id = i
    · rw [if_pos h] at ht
      rcases List.mem_cons.mp ht with h1 | h1
      · rw [h1]
      · exfalso
        have : s.id ∈ ts.map Token.id := by
          rw [h, ← hti]
          exact List.mem_map_of_mem Token.id h1
        exact hnd.1 this
    · rw [if_neg h] at ht
      rcases List.mem_cons.mp ht with h1 | h1
      · exact absurd (h1 ▸ hti) h
      · have hin2 : i ∈ ts.map Token.id := by
          rw [List.map_cons] at hin
          rcases List.mem_cons.mp hin with h2 | h2
          · exact absurd h2.symm h
          · exact h2
        exact ih hnd.2 hin2 t h1 hti

/-- The first reconciliation loop only appends: the output id sequence is
the input id sequence followed by ids taken from the new pairs. -/
theorem updatePhaseOne_ids (nps : List Token) : ∀ loaded : List Token,
    ∃ app : List String, (updatePhaseOne loaded nps).map Token.id =
      loaded.map Token.id ++ app ∧ ∀ i ∈ app, i ∈ nps.map Token.id := by
  induction nps with
  | nil => exact fun loaded => ⟨[], by simp [updatePhaseOne]⟩
  | cons np rest ih =>
    intro loaded
    rw [updatePhaseOne]
    by_cases h : np.id ∈ loaded.map Token.id
    · rw [if_pos h]
      obtain ⟨app, happ, hsub⟩ := ih (markFirstActive loaded np.id)
      refine ⟨app, ?_, fun i hi => ?_⟩
      · rw [happ, markFirstActive_map_id]
      · simpa using Or.inr (by simpa using hsub i hi)
    · rw [if_neg h]
      obtain ⟨app, happ, hsub⟩ := ih (loaded ++ [np])
      refine ⟨np.id :: app, ?_, fun i hi => ?_⟩
      · rw [happ]
        simp
      · rcases List.mem_cons.mp hi with h1 | h1
        · simp [h1]
        · simpa using Or.inr (by simpa using hsub i h1)

/-- The first reconciliation loop preserves distinctness of the ids. -/
theorem updatePhaseOne_nodup (nps : List Token) : ∀ loaded : List Token,
    (loaded.map Token.id).Nodup →
    ((updatePhaseOne loaded nps).map Token.id).Nodup := by
  induction nps with
  | nil =>
    intro loaded h
    simpa [updatePhaseOne] using h
  | cons np rest ih =>
    intro loaded h
    rw [updatePhaseOne]
    by_cases hm : np.id ∈ loaded.map Token.id
    · rw [if_pos hm]
      exact ih _ (by rwa [markFirstActive_map_id])
    · rw [if_neg hm]
      exact ih _ (by simp [List.nodup_append, h, hm])

/-- Tokens with a given id that are all active before the first loop stay
active through it (the loop only activates or appends active candidates). -/
theorem updatePhaseOne_active_persist (nps : List Token) (i : String)
    (hc : ∀ c ∈ nps, c.active = true) : ∀ loaded : List Token,
    (∀ t ∈ loaded, t.id = i → t.active = true) →
    ∀ t ∈ updatePhaseOne loaded nps, t.id = i → t.active = true := by
  induction nps with
  | nil =>
    intro loaded hl
    simpa [updatePhaseOne] using hl
  | cons np rest ih =>
    have hc2 : ∀ c ∈ rest, c.active = true :=
      fun c hm => hc c (List.mem_cons_of_mem _ hm)
    intro loaded hl
    rw [updatePhaseOne]
    by_cases hm : np.id ∈ loaded.map Token.id
    · rw [if_pos hm]
      refine ih hc2 _ (fun t ht hti => ?_)
      rcases mem_markFirstActive _ _ _ ht with h1 | ⟨s, _, he⟩
      · exact hl t h1 hti
      · rw [he]
    · rw [if_neg hm]
      refine ih hc2 _ (fun t ht hti => ?_)
      rcases List.mem_append.mp ht with h1 | h1
      · exact hl t h1 hti
      · have he : t = np := by simpa using h1
        rw [he]
        exact hc np (List.mem_cons_self np rest)

/-- After the first reconciliation loop, every token whose id occurs among
the new pairs is active (given distinct loaded ids and active candidates). -/
theorem updatePhaseOne_active_of_mem (nps : List Token)
    (hc : ∀ c ∈ nps, c.active = true) : ∀ loaded : List Token,
    (loaded.map Token.id).Nodup →
    ∀ t ∈ updatePhaseOne loaded nps, t.id ∈ nps.map Token.id →
      t.active = true := by
  induction nps with
  | nil =>
    intro loaded _ t _ h
    simp at h
  | cons np rest ih =>
    have hc2 : ∀ c ∈ rest, c.active = true :=
      fun c h => hc c (List.mem_cons_of_mem _ h)
    intro loaded hnd t ht hti
    rw [updatePhaseOne] at ht
    by_cases hm : np.id ∈ loaded.map Token.id
    · rw [if_pos hm] at ht
      by_cases hr : t.id ∈ rest.map Token.id
      · exact ih hc2 _ (by rwa [markFirstActive_map_id]) t ht hr
      · have hte : t.id = np.id := by
          rw [List.map_cons] at hti
          rcases List.mem_cons.mp hti with h1 | h1
          · exact h1
          · exact absurd h1 hr
        exact updatePhaseOne_active_persist rest np.id hc2 _
          (markFirstActive_active loaded np.id hnd hm) t ht hte
    · rw [if_neg hm] at ht
      by_cases hr : t.id ∈ rest.map Token.id
      · exact ih hc2 (loaded ++ [np])
          (by simp [List.nodup_append, hnd, hm]) t ht hr
      · have hte : t.id = np.id := by
          rw [List.map_cons] at hti
          rcases List.mem_cons.mp hti with h1 | h1
          · exact h1
          · exact absurd h1 hr
        refine updatePhaseOne_active_persist rest np.id hc2 _
          (fun s hs hsi => ?_) t ht hte
        rcases List.mem_append.mp hs with h1 | h1
        · exact absurd (hsi ▸ List.mem_map_of_mem Token.id h1) hm
        · have he : s = np := by simpa using h1
          rw [he]
          exact hc np (List.mem_cons_self np rest)

/-- The deactivation loop does not change the id sequence. -/
theorem updatePhaseTwo_map_id (l nps : List Token) :
    (updatePhaseTwo l nps).map Token.id = l.map Token.id := by
  unfold updatePhaseTwo
  rw [List.map_map]
  refine List.map_congr_left (fun t _ => ?_)
  simp only [Function.comp_apply]
  split <;> rfl

/-- C2: after `update_active_tokens(candidates)` — invoked at the end of a
load pass, so the candidates are freshly constructed (hence active) and the
loaded ids are distinct — every loaded pair whose id occurs among the
candidate ids is active, every loaded pair whose id is absent is inactive,
and no pair is removed: the id sequence of the loaded list is preserved and
only extended by candidate ids. -/
theorem c2_update_active_tokens_reconciles (loaded candidates : List Token)
    (hc : ∀ c ∈ candidates, c.active = true)
    (hnd : (loaded.map Token.id).Nodup) :
    (∀ t ∈ update_active_tokens loaded candidates,
      t.id ∈ candidates.map Token.id → t.active = true) ∧
    (∀ t ∈ update_active_tokens loaded candidates,
      t.id ∉ candidates.map Token.id → t.active = false) ∧
    (∃ appended : List String,
      (update_active_tokens loaded candidates).map Token.id =
        loaded.map Token.id ++ appended ∧
      ∀ i ∈ appended, i ∈ candidates.map Token.id) := by
  unfold update_active_tokens
  refine ⟨?_, ?_, ?_⟩
  · intro t ht hti
    rcases List.mem_map.mp ht with ⟨s, hs, he⟩
    have hsidem : s.id ∈ candidates.map Token.id := by
      by_cases h : s.id ∈ candidates.map Token.id
      · exact h
      · rw [← he, if_neg h] at hti
        exact absurd hti h
    rw [← he, if_pos hsidem]
    exact updatePhaseOne_active_of_mem candidates hc loaded hnd s hs hsidem
  · intro t ht hti
    rcases List.mem_map.mp ht with ⟨s, hs, he⟩
    by_cases h : s.id ∈ candidates.map Token.id
    · rw [← he, if_pos h] at hti
      exact absurd h hti
    · rw [← he, if_neg h]
  · obtain ⟨app, happ, hsub⟩ := updatePhaseOne_ids candidates loaded
    exact ⟨app, by rw [updatePhaseTwo_map_id, happ], hsub⟩

/-- C2 witness: loaded pairs `A` (inactive), `B` (active); candidates `A`
and `C` (both freshly constructed, active): the update reactivates `A`,
deactivates `B`, and appends `C`. -/
theorem c2_update_active_tokens_reconciles_witness :
    (∀ t ∈ update_active_tokens [⟨"A", false⟩, ⟨"B", true⟩]
        [⟨"A", true⟩, ⟨"C", true⟩],
      t.id ∈ [Token.mk "A" true, Token.mk "C" true].map Token.id →
        t.active = true) ∧
    (∀ t ∈ update_active_tokens [⟨"A", false⟩, ⟨"B", true⟩]
        [⟨"A", true⟩, ⟨"C", true⟩],
      t.id ∉ [Token.mk "A" true, Token.mk "C" true].map Token.id →
        t.active = false) ∧
    (∃ appended : List String,
      (update_active_tokens [⟨"A", false⟩, ⟨"B", true⟩]
        [⟨"A", true⟩, ⟨"C", true⟩]).map Token.id =
        [Token.mk "A" false, Token.mk "B" true].map Token.id ++ appended ∧
      ∀ i ∈ appended,
        i ∈ [Token.mk "A" true, Token.mk "C" true].map Token.id) :=
  c2_update_active_tokens_reconciles [⟨"A", false⟩, ⟨"B", true⟩]
    [⟨"A", true⟩, ⟨"C", true⟩] (by decide) (by decide)

end Spec2Proof
